import Mathlib

/-!
Verification of the aineko dataset layer (src/aineko/core/dataset.py).

The embedding models the pure and stateful logic of `DatasetConsumer`,
`DatasetProducer`, `FakeDatasetConsumer` and the message envelope.  The
external Kafka broker (confluent_kafka) is modelled as an explicit state
(`BrokerState`) holding the sequence of poll outcomes, the current partition
assignment and the watermark table; the Python `json` module is modelled by
an executable JSON codec (`Json.dumps` / `Json.loads`) over a `Json` value
type, for which the round-trip law is proved.  Machine strings are Lean
`String`s (UTF-8 encode/decode between `bytes` and `str` is the identity at
this level); blocking retry loops are given explicit fuel, with fuel
exhaustion (`none`) denoting non-termination of the loop.
-/

namespace Aineko

/-- A JSON-representable Python value: `None`, booleans, integers, strings,
lists and string-keyed dicts (insertion ordered).  This is the payload
universe for the message envelope; floats are outside the model. -/
inductive Json where
  | null
  | bool (b : Bool)
  | num (n : Int)
  | str (s : String)
  | arr (items : List Json)
  | obj (fields : List (String × Json))
deriving Repr

mutual

/-- Structural equality on `Json` values (Python `==` on the modelled
fragment, with dict comparison ordered). -/
def Json.beq : Json → Json → Bool
  | .null, .null => true
  | .bool a, .bool b => a == b
  | .num a, .num b => a == b
  | .str a, .str b => a == b
  | .arr a, .arr b => Json.beqList a b
  | .obj a, .obj b => Json.beqFields a b
  | _, _ => false

/-- Elementwise equality for JSON arrays. -/
def Json.beqList : List Json → List Json → Bool
  | [], [] => true
  | a :: as, b :: bs => Json.beq a b && Json.beqList as bs
  | _, _ => false

/-- Pairwise equality for JSON object fields. -/
def Json.beqFields : List (String × Json) → List (String × Json) → Bool
  | [], [] => true
  | (k1, v1) :: as, (k2, v2) :: bs => k1 == k2 && Json.beq v1 v2 && Json.beqFields as bs
  | _, _ => false

end

mutual

theorem Json.beq_iff : ∀ (a b : Json), (Json.beq a b = true) ↔ a = b
  | .null, b => by cases b <;> simp [Json.beq]
  | .bool x, b => by cases b <;> simp [Json.beq]
  | .num x, b => by cases b <;> simp [Json.beq]
  | .str x, b => by cases b <;> simp [Json.beq]
  | .arr xs, b => by
      cases b <;> simp [Json.beq]
      exact Json.beqList_iff xs _
  | .obj fs, b => by
      cases b <;> simp [Json.beq]
      exact Json.beqFields_iff fs _

theorem Json.beqList_iff : ∀ (a b : List Json), (Json.beqList a b = true) ↔ a = b
  | [], b => by cases b <;> simp [Json.beqList]
  | x :: xs, [] => by simp [Json.beqList]
  | x :: xs, y :: ys => by
      simp [Json.beqList, Json.beq_iff x y, Json.beqList_iff xs ys]

theorem Json.beqFields_iff :
    ∀ (a b : List (String × Json)), (Json.beqFields a b = true) ↔ a = b
  | [], b => by cases b <;> simp [Json.beqFields]
  | x :: xs, [] => by simp [Json.beqFields]
  | (k1, v1) :: xs, (k2, v2) :: ys => by
      simp [Json.beqFields, Json.beq_iff v1 v2, Json.beqFields_iff xs ys, and_assoc]

end

instance : DecidableEq Json := fun a b => decidable_of_iff _ (Json.beq_iff a b)

/-! ### The JSON codec

`Json.dumps` / `Json.loads` model the calls `json.dumps` / `json.loads` used
by `DatasetProducer.produce` and `DatasetConsumer._validate_message`.  The
printer emits compact separators and escapes the quote and backslash
characters; the parser accepts exactly that wire shape.  Both operate on
`List Char` internally (`String` is its character list). -/

/-- The `{` character, by code point. -/
def openBrace : Char := Char.ofNat 123

/-- The `}` character, by code point. -/
def closeBrace : Char := Char.ofNat 125

/-- Decimal digit character for `d < 10`. -/
def digitChar : Nat → Char
  | 0 => '0'
  | 1 => '1'
  | 2 => '2'
  | 3 => '3'
  | 4 => '4'
  | 5 => '5'
  | 6 => '6'
  | 7 => '7'
  | 8 => '8'
  | _ => '9'

/-- Is `c` a decimal digit? -/
def isDigitChar (c : Char) : Bool := 48 ≤ c.toNat && c.toNat ≤ 57

/-- Decimal digit expansion, structurally recursive on a fuel bound so that
it evaluates inside the kernel; `fuel > m` always suffices. -/
def natDigitsF : Nat → Nat → List Char
  | 0, _ => []
  | fuel + 1, m =>
      if m < 10 then [digitChar m]
      else natDigitsF fuel (m / 10) ++ [digitChar (m % 10)]

/-- Decimal digit characters of `m`, most significant first. -/
def natDigits (m : Nat) : List Char := natDigitsF (m + 1) m

/-- Character list of an integer: optional minus sign, then decimal digits. -/
def intChars (n : Int) : List Char :=
  if n < 0 then '-' :: natDigits n.natAbs else natDigits n.toNat

/-- The keyword `null` as characters. -/
def kwNull : List Char := ['n', 'u', 'l', 'l']

/-- The keyword `true` as characters. -/
def kwTrue : List Char := ['t', 'r', 'u', 'e']

/-- The keyword `false` as characters. -/
def kwFalse : List Char := ['f', 'a', 'l', 's', 'e']

/-- JSON string-body escaping: quote and backslash get a backslash escape,
every other character is emitted as itself. -/
def escapeChars : List Char → List Char
  | [] => []
  | c :: cs => if c = '"' ∨ c = '\\' then '\\' :: c :: escapeChars cs else c :: escapeChars cs

mutual

/-- Serialize a JSON value to characters (compact separators). -/
def Json.dumpChars : Json → List Char
  | .null => kwNull
  | .bool true => kwTrue
  | .bool false => kwFalse
  | .num n => intChars n
  | .str s => '"' :: (escapeChars s.data ++ ['"'])
  | .arr xs => '[' :: Json.dumpItems xs
  | .obj fs => openBrace :: Json.dumpFields fs

/-- Serialize array items; the closing `]` is included. -/
def Json.dumpItems : List Json → List Char
  | [] => [']']
  | [x] => Json.dumpChars x ++ [']']
  | x :: xs => Json.dumpChars x ++ ',' :: Json.dumpItems xs

/-- Serialize object fields; the closing `}` is included. -/
def Json.dumpFields : List (String × Json) → List Char
  | [] => [closeBrace]
  | [(k, v)] => '"' :: (escapeChars k.data ++ '"' :: ':' :: (Json.dumpChars v ++ [closeBrace]))
  | (k, v) :: fs =>
      '"' :: (escapeChars k.data ++ '"' :: ':' :: (Json.dumpChars v ++ ',' :: Json.dumpFields fs))

end

/-- Serialize a JSON value to a string (models `json.dumps`). -/
def Json.dumps (j : Json) : String := String.mk j.dumpChars

mutual

/-- Fuel needed by the parser to re-read a serialized value. -/
def jfuel : Json → Nat
  | .null => 1
  | .bool _ => 1
  | .num _ => 1
  | .str _ => 1
  | .arr xs => 1 + jfuelList xs
  | .obj fs => 1 + jfuelFields fs

/-- Fuel needed by the parser for a serialized item list. -/
def jfuelList : List Json → Nat
  | [] => 1
  | x :: xs => 1 + max (jfuel x) (jfuelList xs)

/-- Fuel needed by the parser for a serialized field list. -/
def jfuelFields : List (String × Json) → Nat
  | [] => 1
  | (_, v) :: fs => 1 + max (jfuel v) (jfuelFields fs)

end

/-- Parse a string body after the opening quote, undoing `escapeChars`;
returns the body and the remainder after the closing quote. -/
def parseStrBody : List Char → Option (List Char × List Char)
  | [] => none
  | c :: rest =>
      if c = '"' then some ([], rest)
      else if c = '\\' then
        match rest with
        | [] => none
        | c2 :: rest2 => (parseStrBody rest2).map (fun p => (c2 :: p.1, p.2))
      else (parseStrBody rest).map (fun p => (c :: p.1, p.2))

/-- Consume a maximal run of decimal digits, accumulating their value. -/
def parseDigits (acc : Nat) : List Char → Nat × List Char
  | [] => (acc, [])
  | c :: cs =>
      if isDigitChar c then parseDigits (acc * 10 + (c.toNat - 48)) cs else (acc, c :: cs)

/-- A remainder that cannot extend a digit run: empty or headed by a
non-digit.  Every delimiter the serializer emits after a number qualifies. -/
def digitBoundary : List Char → Bool
  | [] => true
  | c :: _ => !isDigitChar c

/-- Parse a JSON integer (optional minus sign, at least one digit). -/
def parseNumFrom : List Char → Option (Json × List Char)
  | [] => none
  | c :: rest =>
      if c = '-' then
        match rest with
        | [] => none
        | d :: _ =>
            if isDigitChar d then
              let p := parseDigits 0 rest
              some (.num (-(p.1 : Int)), p.2)
            else none
      else if isDigitChar c then
        let p := parseDigits 0 (c :: rest)
        some (.num (p.1 : Int), p.2)
      else none

/-- What the recursive-descent parser is currently reading: a value, the
items of an array (closing `]` included), or the fields of an object
(closing `}` included). -/
inductive ParseMode where
  | val
  | items
  | fields
deriving Repr, DecidableEq

/-- The recursive-descent JSON parser, a single function structurally
recursive on its fuel (so that it evaluates inside the kernel); array items
and object fields are returned already wrapped in `.arr` / `.obj`. -/
def parseP : Nat → ParseMode → List Char → Option (Json × List Char)
  | 0, _, _ => none
  | _ + 1, _, [] => none
  | fuel + 1, .val, c :: rest =>
      if c = 'n' then
        match rest with
        | 'u' :: 'l' :: 'l' :: r => some (.null, r)
        | _ => none
      else if c = 't' then
        match rest with
        | 'r' :: 'u' :: 'e' :: r => some (.bool true, r)
        | _ => none
      else if c = 'f' then
        match rest with
        | 'a' :: 'l' :: 's' :: 'e' :: r => some (.bool false, r)
        | _ => none
      else if c = '"' then
        (parseStrBody rest).map (fun p => (.str (String.mk p.1), p.2))
      else if c = '[' then
        parseP fuel .items rest
      else if c = openBrace then
        parseP fuel .fields rest
      else parseNumFrom (c :: rest)
  | fuel + 1, .items, c :: rest =>
      if c = ']' then some (.arr [], rest)
      else
        match parseP fuel .val (c :: rest) with
        | none => none
        | some (v, r) =>
            match r with
            | ',' :: r2 =>
                match parseP fuel .items r2 with
                | some (.arr vs, r3) => some (.arr (v :: vs), r3)
                | _ => none
            | ']' :: r2 => some (.arr [v], r2)
            | _ => none
  | fuel + 1, .fields, c :: rest =>
      if c = closeBrace then some (.obj [], rest)
      else if c = '"' then
        match parseStrBody rest with
        | none => none
        | some (k, r1) =>
            match r1 with
            | ':' :: r2 =>
                match parseP fuel .val r2 with
                | none => none
                | some (v, r3) =>
                    match r3 with
                    | [] => none
                    | c2 :: r4 =>
                        if c2 = ',' then
                          match parseP fuel .fields r4 with
                          | some (.obj fs, r5) => some (.obj ((String.mk k, v) :: fs), r5)
                          | _ => none
                        else if c2 = closeBrace then some (.obj [(String.mk k, v)], r4)
                        else none
            | _ => none
      else none

/-- Parse one JSON value. -/
def parseVal (fuel : Nat) (cs : List Char) : Option (Json × List Char) :=
  parseP fuel .val cs

/-- Parse a complete JSON document (models `json.loads`): the whole input
must be consumed. -/
def Json.loads (s : String) : Option Json :=
  match parseVal (s.data.length + 1) s.data with
  | some (j, []) => some j
  | _ => none

/-! ### The message envelope -/

/-- Modelled from the spec: the `MessageData` envelope class lives in
`aineko.models.base`, which is not under `src/`.  Per the spec it wraps a
payload with the keys `timestamp`, `dataset`, `source_node`,
`source_pipeline` and `message`, all set exactly once at production time,
`timestamp` being the production instant and `message` an arbitrary
JSON-representable payload. -/
structure MessageData where
  timestamp : String
  dataset : String
  source_node : String
  source_pipeline : String
  message : Json
deriving Repr, DecidableEq

/-- Envelope construction; `now` models the production-time timestamp that
the source's pydantic default factory fills in. -/
def MessageData.make (now dataset source_node source_pipeline : String)
    (message : Json) : MessageData :=
  ⟨now, dataset, source_node, source_pipeline, message⟩

/-- `MessageData.model_dump(mode="json")`: the envelope as a JSON object. -/
def MessageData.toJson (m : MessageData) : Json :=
  .obj [("timestamp", .str m.timestamp), ("dataset", .str m.dataset),
        ("source_node", .str m.source_node), ("source_pipeline", .str m.source_pipeline),
        ("message", m.message)]

/-- First-match association lookup in JSON object fields. -/
def jlookup (key : String) : List (String × Json) → Option Json
  | [] => none
  | (k, v) :: fs => if k = key then some v else jlookup key fs

/-- Modelled from the spec: validation performed by `MessageData(**dict)`
(pydantic model not under `src/`) — the decoded value must be an object
carrying the four provenance string fields and a `message` payload. -/
def MessageData.fromJson : Json → Option MessageData
  | .obj fields =>
      match jlookup "timestamp" fields, jlookup "dataset" fields,
            jlookup "source_node" fields, jlookup "source_pipeline" fields,
            jlookup "message" fields with
      | some (.str ts), some (.str ds), some (.str sn), some (.str sp), some msg =>
          some ⟨ts, ds, sn, sp, msg⟩
      | _, _, _, _, _ => none
  | _ => none

/-! ### Errors and the external broker -/

/-- A `confluent_kafka.KafkaError`, identified by its code. -/
structure KafkaError where
  code : String
deriving Repr, DecidableEq

/-- A raised Python exception, as surfaced by this layer: `ValueError` for
usage errors, `KafkaError` from the broker, and the error raised when the
decoded object fails envelope validation. -/
inductive PyErr where
  | valueError (msg : String)
  | kafka (e : KafkaError)
  | validationError
deriving Repr, DecidableEq

/-- The `confluent_kafka.OFFSET_INVALID` sentinel. -/
def OFFSET_INVALID : Int := -1001

/-- A broker topic partition, carrying the offset field the source mutates
before calling `assign`. -/
structure TopicPartition where
  partition : Int
  offset : Int
deriving Repr, DecidableEq

/-- One record as returned by `Consumer.poll`: an optional byte payload
(bytes are `String` at this level) and an optional broker-reported error. -/
structure RawMessage where
  value : Option String
  err : Option KafkaError
deriving Repr, DecidableEq

/-- Outcome of one `Consumer.poll` call against the external broker:
timeout (returns `None`), a delivered record, or a raised `KafkaError`. -/
inductive PollItem where
  | timeout
  | msg (value : Option String) (err : Option KafkaError)
  | raise (e : KafkaError)
deriving Repr, DecidableEq

/-- The external broker, as seen through the operations the source uses:
the scripted sequence of poll outcomes, the current partition assignment,
the per-partition high watermarks, and an optional error raised by
`get_watermark_offsets`.  Poll timeout values are represented by the
scripted outcomes themselves. -/
structure BrokerState where
  queue : List PollItem
  assignment : List TopicPartition
  watermarks : List (Int × Int)
  watermarkError : Option KafkaError
deriving Repr, DecidableEq

/-- `Consumer.poll`: consume the next scripted outcome. -/
def BrokerState.poll (b : BrokerState) : Except KafkaError (Option RawMessage) × BrokerState :=
  match b.queue with
  | [] => (.ok none, b)
  | .timeout :: rest => (.ok none, { b with queue := rest })
  | .msg v e :: rest => (.ok (some ⟨v, e⟩), { b with queue := rest })
  | .raise e :: rest => (.error e, { b with queue := rest })

/-- `Consumer.get_watermark_offsets(partition, cached=...)[1]`: the high
watermark of a partition, or a raised broker error. -/
def BrokerState.highWatermark (b : BrokerState) (pid : Int) (_cached : Bool) :
    Except KafkaError Int :=
  match b.watermarkError with
  | some e => .error e
  | none => .ok ((b.watermarks.lookup pid).getD OFFSET_INVALID)

/-- The per-partition seek of `_update_offset_to_latest`: one position
before the high watermark, or `-1` when the watermark is the invalid
sentinel (the source logs and defaults instead of raising). -/
def seekPartition (high : Int) (p : TopicPartition) : TopicPartition :=
  if high = OFFSET_INVALID then { p with offset := -1 } else { p with offset := high - 1 }

/-- The for-loop of `_update_offset_to_latest` over the assigned
partitions; a watermark error aborts the loop as a raised `KafkaError`. -/
def seekAll (b : BrokerState) (cached : Bool) :
    List TopicPartition → Except KafkaError (List TopicPartition)
  | [] => .ok []
  | p :: ps =>
      match b.highWatermark p.partition cached with
      | .error e => .error e
      | .ok high =>
          match seekAll b cached ps with
          | .error e => .error e
          | .ok rest => .ok (seekPartition high p :: rest)

/-! ### The dataset consumer -/

/-- `DatasetConsumer` state: the identity and resolved names computed by
`__init__`, the `cached` flag, and the owned broker handle.  `subscribed`
is the topic list passed to `Consumer.subscribe` (the consumer-group id
equals `name`). -/
structure DatasetConsumer where
  name : String
  topic_name : String
  subscribed : List String
  cached : Bool
  broker : BrokerState
deriving Repr, DecidableEq

/-- Python truthiness of the optional topic qualifier (`if self.prefix:`
in the source): absent or empty string is falsy. -/
def truthy : Option String → Bool
  | none => false
  | some s => !(s == "")

/-- The string carried by an optional qualifier (empty when absent). -/
def optStr : Option String → String
  | none => ""
  | some s => s

/-- The spec's topic formula (§4.1): `[prefix.][pipeline.]dataset`, the
pipeline segment present exactly when pipeline-prefixing is on and the
prefix segment present exactly when a (truthy) prefix is given.  Stated
from the spec's words, to be compared against the code's resolution. -/
def specTopicName (dataset_name pipeline_name : String) (pfx : Option String)
    (pipelinePrefixed : Bool) : String :=
  let base := if pipelinePrefixed then pipeline_name ++ "." ++ dataset_name else dataset_name
  if truthy pfx then optStr pfx ++ "." ++ base else base

/-- `DatasetConsumer.__init__`: topic resolution, identity and
subscription.  `pfx` is the source's optional `prefix` argument and
`pipelinePrefixed` its `has_pipeline_prefix` flag; Kafka client
configuration plumbing has no observable effect in this model. -/
def DatasetConsumer.init (dataset_name node_name pipeline_name : String)
    (pfx : Option String) (pipelinePrefixed : Bool) (broker : BrokerState) :
    DatasetConsumer :=
  let topic_name := if pipelinePrefixed then pipeline_name ++ "." ++ dataset_name
                    else dataset_name
  if truthy pfx then
    { name := optStr pfx ++ "." ++ pipeline_name ++ "." ++ node_name
      topic_name := topic_name
      subscribed := [optStr pfx ++ "." ++ topic_name]
      cached := false
      broker := broker }
  else
    { name := pipeline_name ++ "." ++ node_name
      topic_name := topic_name
      subscribed := [topic_name]
      cached := false
      broker := broker }

/-- `_update_offset_to_latest`: seek every assigned partition and
re-assign.  The source's wait-until-assignment poll loop is a liveness
step only and is modelled as already satisfied by `broker.assignment`. -/
def DatasetConsumer.updateOffsetToLatest (c : DatasetConsumer) :
    Except KafkaError BrokerState :=
  match seekAll c.broker c.cached c.broker.assignment with
  | .error e => .error e
  | .ok ps => .ok { c.broker with assignment := ps }

/-- `_validate_message`: absent record, absent payload, broker-reported
record error and JSON decode failure all yield `None`; a decoded object
failing envelope validation raises (the source does not catch pydantic
errors). -/
def DatasetConsumer.validateMessage (raw : Option RawMessage) :
    Except PyErr (Option MessageData) :=
  match raw with
  | none => .ok none
  | some m =>
      match m.value with
      | none => .ok none
      | some v =>
          match m.err with
          | some _ => .ok none
          | none =>
              match Json.loads v with
              | none => .ok none
              | some j =>
                  match MessageData.fromJson j with
                  | none => .error .validationError
                  | some md => .ok (some md)

/-- `DatasetConsumer.consume`: one poll in `"next"` mode; in `"last"` mode
an offset-to-latest seek first, whose `KafkaError` is caught and turned
into `None` before any poll.  `self.cached = True` runs after a completed
poll (either mode).  An invalid `how` raises `ValueError`. -/
def DatasetConsumer.consume (c : DatasetConsumer) (how : String) :
    Except PyErr (Option MessageData) × DatasetConsumer :=
  if how ≠ "next" ∧ how ≠ "last" then
    (.error (.valueError "Invalid how. Expected next or last."), c)
  else if how = "next" then
    match c.broker.poll with
    | (.error e, b2) => (.error (.kafka e), { c with broker := b2 })
    | (.ok raw, b2) =>
        (DatasetConsumer.validateMessage raw, { c with broker := b2, cached := true })
  else
    match c.updateOffsetToLatest with
    | .error _ => (.ok none, c)
    | .ok b1 =>
        match b1.poll with
        | (.error e, b2) => (.error (.kafka e), { c with broker := b2 })
        | (.ok raw, b2) =>
            (DatasetConsumer.validateMessage raw, { c with broker := b2, cached := true })

/-- `_consume_message`: block until `consume` yields a message, silently
retrying the `_MAX_POLL_EXCEEDED` broker condition and re-raising any
other error.  `fuel` bounds the unbounded source loop; `none` means the
loop did not finish within the fuel. -/
def DatasetConsumer.consumeMessage (fuel : Nat) (c : DatasetConsumer) (how : String) :
    Option (Except PyErr MessageData × DatasetConsumer) :=
  match fuel with
  | 0 => none
  | fuel + 1 =>
      match c.consume how with
      | (.ok (some m), c2) => some (.ok m, c2)
      | (.ok none, c2) => DatasetConsumer.consumeMessage fuel c2 how
      | (.error (.kafka e), c2) =>
          if e.code = "_MAX_POLL_EXCEEDED" then DatasetConsumer.consumeMessage fuel c2 how
          else some (.error (.kafka e), c2)
      | (.error err, c2) => some (.error err, c2)

/-- `DatasetConsumer.next`: the blocking `"next"` wrapper. -/
def DatasetConsumer.next (fuel : Nat) (c : DatasetConsumer) :
    Option (Except PyErr MessageData × DatasetConsumer) :=
  DatasetConsumer.consumeMessage fuel c "next"

/-- `DatasetConsumer.last`: rejects a non-positive timeout with
`ValueError` before touching the broker, then blocks on `"last"` mode. -/
def DatasetConsumer.last (fuel : Nat) (c : DatasetConsumer) (timeout : Int) :
    Option (Except PyErr MessageData × DatasetConsumer) :=
  if timeout ≤ 0 then
    some (.error (.valueError "Timeout must be greater than 0 when consuming the last message."), c)
  else DatasetConsumer.consumeMessage fuel c "last"

/-- `consume_all`: loop the default (`"next"`) consume, skip `None`
results, stop on the end message without including it.  `fuel` bounds the
source's unbounded loop. -/
def DatasetConsumer.consumeAll (fuel : Nat) (c : DatasetConsumer) (endMessage : Json) :
    Option (Except PyErr (List MessageData) × DatasetConsumer) :=
  match fuel with
  | 0 => none
  | fuel + 1 =>
      match c.consume "next" with
      | (.error e, c2) => some (.error e, c2)
      | (.ok none, c2) => DatasetConsumer.consumeAll fuel c2 endMessage
      | (.ok (some m), c2) =>
          if m.message = endMessage then some (.ok [], c2)
          else
            match DatasetConsumer.consumeAll fuel c2 endMessage with
            | none => none
            | some (.ok ms, c3) => some (.ok (m :: ms), c3)
            | some (.error e, c3) => some (.error e, c3)

/-! ### The dataset producer -/

/-- The record handed to `Producer.produce`: target topic, optional key
(Python's `str(key).encode` is the identity on an optional string at this
level) and the serialized envelope bytes. -/
structure ProducedRecord where
  topic : String
  key : Option String
  value : String
deriving Repr, DecidableEq

/-- `DatasetProducer` state as set by `__init__`. -/
structure DatasetProducer where
  source_pipeline : String
  dataset : String
  source_node : String
  pfx : Option String
  pipelinePrefixed : Bool
  topic_name : String
deriving Repr, DecidableEq

/-- `DatasetProducer.__init__`: provenance fields and topic resolution
(`pfx` is the source's optional `prefix` argument). -/
def DatasetProducer.init (dataset_name node_name pipeline_name : String)
    (pfx : Option String) (pipelinePrefixed : Bool) : DatasetProducer :=
  let t1 := dataset_name
  let t2 := if pipelinePrefixed then pipeline_name ++ "." ++ t1 else t1
  { source_pipeline := pipeline_name
    dataset := dataset_name
    source_node := node_name
    pfx := pfx
    pipelinePrefixed := pipelinePrefixed
    topic_name := if truthy pfx then optStr pfx ++ "." ++ t2 else t2 }

/-- `DatasetProducer.produce`: wrap the payload in an envelope stamped with
the production instant `now`, serialize, and hand the record to the broker
publish handle.  Delivery callback and flush live at the broker boundary
and never raise back into `produce`, so the model returns the record. -/
def DatasetProducer.produce (pr : DatasetProducer) (now : String) (message : Json)
    (key : Option String) : ProducedRecord :=
  { topic := pr.topic_name
    key := key
    value := Json.dumps (MessageData.make now pr.dataset pr.source_node
      pr.source_pipeline message).toJson }

/-- A delivered broker record carrying the serialized envelope of payload
`p` as produced with the given provenance: what a consumer polls after the
matching `produce`. -/
def wireOf (now dataset source_node source_pipeline : String) (p : Json) : PollItem :=
  .msg (some (Json.dumps (MessageData.make now dataset source_node source_pipeline p).toJson))
    none

/-! ### The fake consumer -/

/-- Result of a fake consume: `"next"` wraps the popped head value in an
envelope, `"last"` returns the raw tail element of `values` itself. -/
inductive FakeResult where
  | wrapped (m : MessageData)
  | raw (v : Json)
deriving Repr, DecidableEq

/-- `FakeDatasetConsumer` state. -/
structure FakeDatasetConsumer where
  dataset_name : String
  node_name : String
  source_pipeline : String
  values : List Json
  empty : Bool
deriving Repr, DecidableEq

/-- `FakeDatasetConsumer.__init__`. -/
def FakeDatasetConsumer.init (dataset_name node_name source_pipeline : String)
    (values : List Json) : FakeDatasetConsumer :=
  { dataset_name := dataset_name
    node_name := node_name
    source_pipeline := source_pipeline
    values := values
    empty := false }

/-- `FakeDatasetConsumer.consume`: `"next"` pops and wraps the head
(setting `empty` when the popped element was the only one), `"last"`
returns the raw tail element without mutation; an exhausted list falls
through to `None`.  An invalid `how` raises `ValueError`. -/
def FakeDatasetConsumer.consume (c : FakeDatasetConsumer) (how : String) (now : String) :
    Except PyErr (Option FakeResult) × FakeDatasetConsumer :=
  if how ≠ "next" ∧ how ≠ "last" then
    (.error (.valueError "Invalid how. Expected next or last."), c)
  else if how = "next" then
    match c.values with
    | [] => (.ok none, c)
    | v :: rest =>
        (.ok (some (.wrapped (MessageData.make now c.dataset_name c.node_name
           c.source_pipeline v))),
         { c with values := rest, empty := if rest = [] then true else c.empty })
  else
    match c.values.getLast? with
    | some v => (.ok (some (.raw v)), c)
    | none => (.ok none, c)

/-- `FakeDatasetConsumer.next`: plain delegation to `consume("next")`. -/
def FakeDatasetConsumer.next (c : FakeDatasetConsumer) (now : String) :
    Except PyErr (Option FakeResult) × FakeDatasetConsumer :=
  c.consume "next" now

/-- `FakeDatasetConsumer.last`: plain delegation to `consume("last")`; the
source performs no validation of its `timeout` argument. -/
def FakeDatasetConsumer.last (c : FakeDatasetConsumer) (timeout : Int) (now : String) :
    Except PyErr (Option FakeResult) × FakeDatasetConsumer :=
  c.consume "last" now

/-! ## Round-trip of the JSON codec -/

/-- Each digit character carries its value and passes `isDigitChar`. -/
theorem digitChar_spec (d : Nat) (h : d < 10) :
    (digitChar d).toNat - 48 = d ∧ isDigitChar (digitChar d) = true := by
  interval_cases d <;> exact ⟨by decide, by decide⟩

/-- The digit expansion does not depend on the fuel, as long as it is
sufficient. -/
theorem natDigitsF_congr (m : Nat) : ∀ (f1 f2 : Nat), m < f1 → m < f2 →
    natDigitsF f1 m = natDigitsF f2 m := by
  induction m using Nat.strongRecOn with
  | _ m ih =>
    intro f1 f2 h1 h2
    match f1, f2 with
    | a + 1, b + 1 =>
      simp only [natDigitsF]
      by_cases h10 : m < 10
      · simp [h10]
      · simp only [if_neg h10]
        rw [ih (m / 10) (by omega) a b (by omega) (by omega)]

/-- The recursion law of `natDigits`, with the fuel abstracted away. -/
theorem natDigits_eq (m : Nat) :
    natDigits m
      = if m < 10 then [digitChar m] else natDigits (m / 10) ++ [digitChar (m % 10)] := by
  show natDigitsF (m + 1) m = _
  by_cases h10 : m < 10
  · simp [natDigitsF, h10]
  · simp only [natDigitsF, if_neg h10]
    rw [natDigitsF_congr (m / 10) m (m / 10 + 1) (by omega) (by omega)]
    rfl

theorem natDigits_ne_nil (m : Nat) : natDigits m ≠ [] := by
  rw [natDigits_eq]; split <;> simp

/-- Every emitted digit character is a digit. -/
theorem natDigits_digits (m : Nat) : ∀ c ∈ natDigits m, isDigitChar c = true := by
  induction m using Nat.strongRecOn with
  | _ m ih =>
    rw [natDigits_eq]
    by_cases h10 : m < 10
    · simp only [if_pos h10, List.mem_singleton]
      rintro c rfl
      exact (digitChar_spec m h10).2
    · simp only [if_neg h10, List.mem_append, List.mem_singleton]
      rintro c (hc | rfl)
      · exact ih (m / 10) (by omega) c hc
      · exact (digitChar_spec (m % 10) (by omega)).2

/-- Folding the digit accumulator over `natDigits m` recovers `m`. -/
theorem natDigits_foldl (m : Nat) : ∀ acc : Nat,
    (natDigits m).foldl (fun a c => a * 10 + (c.toNat - 48)) acc
      = acc * 10 ^ (natDigits m).length + m := by
  induction m using Nat.strongRecOn with
  | _ m ih =>
    intro acc
    rw [natDigits_eq]
    by_cases h10 : m < 10
    · simp only [if_pos h10, List.foldl_cons, List.foldl_nil, List.length_singleton]
      rw [(digitChar_spec m h10).1]
      simp [pow_one]
    · simp only [if_neg h10, List.foldl_append, List.foldl_cons, List.foldl_nil,
        List.length_append, List.length_singleton]
      rw [ih (m / 10) (by omega) acc, (digitChar_spec (m % 10) (by omega)).1, pow_succ]
      have hdm : 10 * (m / 10) + m % 10 = m := Nat.div_add_mod m 10
      ring_nf
      omega

/-- A digit run stops exactly at a boundary. -/
theorem parseDigits_stop (acc : Nat) (cs : List Char) (h : digitBoundary cs = true) :
    parseDigits acc cs = (acc, cs) := by
  cases cs with
  | nil => rfl
  | cons c t =>
      simp only [digitBoundary, Bool.not_eq_true'] at h
      simp [parseDigits, h]

/-- `parseDigits` consumes a digit run, folding it into the accumulator. -/
theorem parseDigits_run (ds : List Char) (h : ∀ c ∈ ds, isDigitChar c = true) :
    ∀ acc rest, parseDigits acc (ds ++ rest)
      = parseDigits (ds.foldl (fun a c => a * 10 + (c.toNat - 48)) acc) rest := by
  induction ds with
  | nil => intro acc rest; simp
  | cons c t ih =>
      intro acc rest
      have hc : isDigitChar c = true := h c (by simp)
      have ht := ih (fun x hx => h x (by simp [hx]))
      simp [parseDigits, hc, ht]

/-- The digit-run round trip at accumulator `0`. -/
theorem parseDigits_natDigits (m : Nat) (rest : List Char) (hb : digitBoundary rest = true) :
    parseDigits 0 (natDigits m ++ rest) = (m, rest) := by
  rw [parseDigits_run (natDigits m) (natDigits_digits m), natDigits_foldl,
    parseDigits_stop _ _ hb]
  simp

/-- A digit character is none of the characters the parser dispatches on. -/
theorem isDigitChar_ne (c : Char) (h : isDigitChar c = true) :
    c ≠ 'n' ∧ c ≠ 't' ∧ c ≠ 'f' ∧ c ≠ '"' ∧ c ≠ '[' ∧ c ≠ openBrace ∧ c ≠ '-' ∧
    c ≠ ']' ∧ c ≠ ',' ∧ c ≠ ':' ∧ c ≠ closeBrace := by
  refine ⟨?_, ?_, ?_, ?_, ?_, ?_, ?_, ?_, ?_, ?_, ?_⟩ <;>
    (rintro rfl; revert h; decide)

/-- The number round trip for a nonnegative value. -/
theorem parseNumFrom_nonneg (m : Nat) (rest : List Char) (hb : digitBoundary rest = true) :
    parseNumFrom (natDigits m ++ rest) = some (.num (m : Int), rest) := by
  obtain ⟨d, tl, hdt⟩ : ∃ d tl, natDigits m = d :: tl := by
    cases hnd : natDigits m with
    | nil => exact absurd hnd (natDigits_ne_nil m)
    | cons d tl => exact ⟨d, tl, rfl⟩
  have hd : isDigitChar d = true := natDigits_digits m d (by rw [hdt]; simp)
  have hminus : d ≠ '-' := (isDigitChar_ne d hd).2.2.2.2.2.2.1
  have hpd := parseDigits_natDigits m rest hb
  rw [hdt, List.cons_append] at hpd ⊢
  simp [parseNumFrom, hminus, hd, hpd]

/-- The number round trip for any integer. -/
theorem parseNumFrom_intChars (n : Int) (rest : List Char) (hb : digitBoundary rest = true) :
    parseNumFrom (intChars n ++ rest) = some (.num n, rest) := by
  by_cases hneg : n < 0
  · obtain ⟨d, tl, hdt⟩ : ∃ d tl, natDigits n.natAbs = d :: tl := by
      cases hnd : natDigits n.natAbs with
      | nil => exact absurd hnd (natDigits_ne_nil _)
      | cons d tl => exact ⟨d, tl, rfl⟩
    have hd : isDigitChar d = true := natDigits_digits _ d (by rw [hdt]; simp)
    have hpd := parseDigits_natDigits n.natAbs rest hb
    rw [hdt, List.cons_append] at hpd
    simp only [intChars, if_pos hneg, List.cons_append]
    rw [hdt, List.cons_append]
    simp [parseNumFrom, hd, hpd]
    simp [abs_of_neg hneg]
  · simp only [intChars, if_neg hneg]
    rw [parseNumFrom_nonneg n.toNat rest hb]
    have htn : ((n.toNat : Int)) = n := by omega
    rw [htn]

/-- The string-body round trip: parsing undoes escaping up to the closing
quote. -/
theorem parseStrBody_escape (l : List Char) : ∀ rest : List Char,
    parseStrBody (escapeChars l ++ '"' :: rest) = some (l, rest) := by
  induction l with
  | nil =>
      intro rest
      simp only [escapeChars, List.nil_append]
      rw [parseStrBody.eq_def]
      simp
  | cons c t ih =>
      intro rest
      by_cases hc : c = '"' ∨ c = '\\'
      · simp only [escapeChars, if_pos hc, List.cons_append]
        rw [parseStrBody.eq_def]
        simp [ih]
      · push_neg at hc
        simp only [escapeChars, if_neg (by tauto : ¬(c = '"' ∨ c = '\\')), List.cons_append]
        rw [parseStrBody.eq_def]
        simp [hc.1, hc.2, ih]

/-! Single-step reductions of the parser at successor fuel. -/

theorem parseP_null (fuel : Nat) (rest : List Char) :
    parseP (fuel + 1) .val ('n' :: 'u' :: 'l' :: 'l' :: rest) = some (.null, rest) := by
  simp [parseP]

theorem parseP_true (fuel : Nat) (rest : List Char) :
    parseP (fuel + 1) .val ('t' :: 'r' :: 'u' :: 'e' :: rest) = some (.bool true, rest) := by
  simp [parseP]

theorem parseP_false (fuel : Nat) (rest : List Char) :
    parseP (fuel + 1) .val ('f' :: 'a' :: 'l' :: 's' :: 'e' :: rest)
      = some (.bool false, rest) := by
  simp [parseP]

theorem parseP_quote (fuel : Nat) (rest : List Char) :
    parseP (fuel + 1) .val ('"' :: rest)
      = (parseStrBody rest).map (fun p => (Json.str (String.mk p.1), p.2)) := by
  simp [parseP]

theorem parseP_lbracket (fuel : Nat) (rest : List Char) :
    parseP (fuel + 1) .val ('[' :: rest) = parseP fuel .items rest := by
  simp [parseP]

theorem parseP_obrace (fuel : Nat) (rest : List Char) :
    parseP (fuel + 1) .val (openBrace :: rest) = parseP fuel .fields rest := by
  simp only [parseP]
  rw [if_neg (by decide), if_neg (by decide), if_neg (by decide), if_neg (by decide),
      if_neg (by decide)]
  simp

theorem parseP_numHead (fuel : Nat) (c : Char) (rest : List Char)
    (h1 : c ≠ 'n') (h2 : c ≠ 't') (h3 : c ≠ 'f') (h4 : c ≠ '"') (h5 : c ≠ '[')
    (h6 : c ≠ openBrace) :
    parseP (fuel + 1) .val (c :: rest) = parseNumFrom (c :: rest) := by
  simp only [parseP]
  rw [if_neg h1, if_neg h2, if_neg h3, if_neg h4, if_neg h5, if_neg h6]

theorem parseP_itemsDone (fuel : Nat) (rest : List Char) :
    parseP (fuel + 1) .items (']' :: rest) = some (.arr [], rest) := by
  simp [parseP]

theorem parseP_fieldsDone (fuel : Nat) (rest : List Char) :
    parseP (fuel + 1) .fields (closeBrace :: rest) = some (.obj [], rest) := by
  simp only [parseP]
  simp

/-- Every serialized value begins with a character that closes no array. -/
theorem dumpChars_head (j : Json) :
    ∃ c tl, Json.dumpChars j = c :: tl ∧ c ≠ ']' := by
  cases j with
  | null => exact ⟨'n', _, rfl, by decide⟩
  | bool b =>
      cases b with
      | true => exact ⟨'t', _, rfl, by decide⟩
      | false => exact ⟨'f', _, rfl, by decide⟩
  | str s => exact ⟨'"', _, rfl, by decide⟩
  | arr xs => exact ⟨'[', _, rfl, by decide⟩
  | obj fs => exact ⟨openBrace, _, rfl, by decide⟩
  | num n =>
      by_cases hneg : n < 0
      · refine ⟨'-', natDigits n.natAbs, ?_, by decide⟩
        show intChars n = _
        simp [intChars, hneg]
      · obtain ⟨d, tl, hdt⟩ : ∃ d tl, natDigits n.toNat = d :: tl := by
          cases hnd : natDigits n.toNat with
          | nil => exact absurd hnd (natDigits_ne_nil _)
          | cons d tl => exact ⟨d, tl, rfl⟩
        have hdig : isDigitChar d = true := natDigits_digits _ d (by rw [hdt]; simp)
        refine ⟨d, tl, ?_, (isDigitChar_ne d hdig).2.2.2.2.2.2.2.1⟩
        show intChars n = _
        simp [intChars, hneg, hdt]

theorem jfuel_pos (j : Json) : 1 ≤ jfuel j := by
  cases j <;> (first
    | exact le_of_eq rfl.symm
    | (rw [show jfuel _ = 1 + _ from rfl]; omega))

theorem jfuelList_pos (xs : List Json) : 1 ≤ jfuelList xs := by
  cases xs with
  | nil => exact le_of_eq rfl.symm
  | cons x t => rw [show jfuelList (x :: t) = 1 + max (jfuel x) (jfuelList t) from rfl]; omega

theorem jfuelFields_pos (fs : List (String × Json)) : 1 ≤ jfuelFields fs := by
  cases fs with
  | nil => exact le_of_eq rfl.symm
  | cons kv t =>
      obtain ⟨k, v⟩ := kv
      rw [show jfuelFields ((k, v) :: t) = 1 + max (jfuel v) (jfuelFields t) from rfl]; omega

mutual

theorem jfuel_le_dump : ∀ j : Json, jfuel j ≤ (Json.dumpChars j).length
  | .null => by decide
  | .bool b => by cases b <;> decide
  | .num n => by
      rw [show jfuel (.num n) = 1 from rfl, show Json.dumpChars (.num n) = intChars n from rfl]
      have hne : intChars n ≠ [] := by
        by_cases hneg : n < 0
        · simp [intChars, hneg]
        · simp [intChars, hneg, natDigits_ne_nil]
      have := List.length_pos.mpr hne
      omega
  | .str s => by
      rw [show jfuel (.str s) = 1 from rfl,
        show Json.dumpChars (.str s) = '"' :: (escapeChars s.data ++ ['"']) from rfl]
      simp
  | .arr xs => by
      have h2 := jfuelList_le_dump xs
      rw [show jfuel (.arr xs) = 1 + jfuelList xs from rfl,
        show Json.dumpChars (.arr xs) = '[' :: Json.dumpItems xs from rfl]
      simp only [List.length_cons]
      omega
  | .obj fs => by
      have h2 := jfuelFields_le_dump fs
      rw [show jfuel (.obj fs) = 1 + jfuelFields fs from rfl,
        show Json.dumpChars (.obj fs) = openBrace :: Json.dumpFields fs from rfl]
      simp only [List.length_cons]
      omega

theorem jfuelList_le_dump : ∀ xs : List Json, jfuelList xs ≤ (Json.dumpItems xs).length
  | [] => by decide
  | [x] => by
      have h1 := jfuel_le_dump x
      have h3 := jfuel_pos x
      rw [show jfuelList [x] = 1 + max (jfuel x) (jfuelList []) from rfl,
        show Json.dumpItems [x] = Json.dumpChars x ++ [']'] from rfl,
        show jfuelList [] = 1 from rfl]
      simp only [List.length_append, List.length_singleton]
      omega
  | x :: y :: ys => by
      have h1 := jfuel_le_dump x
      have h2 := jfuelList_le_dump (y :: ys)
      rw [show jfuelList (x :: y :: ys) = 1 + max (jfuel x) (jfuelList (y :: ys)) from rfl,
        show Json.dumpItems (x :: y :: ys)
          = Json.dumpChars x ++ ',' :: Json.dumpItems (y :: ys) from rfl]
      simp only [List.length_append, List.length_cons]
      omega

theorem jfuelFields_le_dump :
    ∀ fs : List (String × Json), jfuelFields fs ≤ (Json.dumpFields fs).length
  | [] => by decide
  | [(k, v)] => by
      have h1 := jfuel_le_dump v
      rw [show jfuelFields [(k, v)] = 1 + max (jfuel v) (jfuelFields []) from rfl,
        show Json.dumpFields [(k, v)]
          = '"' :: (escapeChars k.data ++ '"' :: ':' :: (Json.dumpChars v ++ [closeBrace]))
          from rfl,
        show jfuelFields [] = 1 from rfl]
      simp only [List.length_append, List.length_cons, List.length_singleton]
      omega
  | (k, v) :: (k2, v2) :: fs => by
      have h1 := jfuel_le_dump v
      have h2 := jfuelFields_le_dump ((k2, v2) :: fs)
      rw [show jfuelFields ((k, v) :: (k2, v2) :: fs)
          = 1 + max (jfuel v) (jfuelFields ((k2, v2) :: fs)) from rfl,
        show Json.dumpFields ((k, v) :: (k2, v2) :: fs)
          = '"' :: (escapeChars k.data ++ '"' :: ':'
              :: (Json.dumpChars v ++ ',' :: Json.dumpFields ((k2, v2) :: fs))) from rfl]
      simp only [List.length_append, List.length_cons]
      omega

end

/-- The parser inverts the serializer, for values, item lists and field
lists, by induction on the fuel. -/
theorem parseP_dump : ∀ fuel : Nat,
    (∀ j rest, jfuel j ≤ fuel → digitBoundary rest = true →
       parseP fuel .val (Json.dumpChars j ++ rest) = some (j, rest)) ∧
    (∀ xs rest, jfuelList xs ≤ fuel →
       parseP fuel .items (Json.dumpItems xs ++ rest) = some (.arr xs, rest)) ∧
    (∀ fs rest, jfuelFields fs ≤ fuel →
       parseP fuel .fields (Json.dumpFields fs ++ rest) = some (.obj fs, rest)) := by
  intro fuel
  induction fuel with
  | zero =>
      refine ⟨fun j _ hj _ => absurd hj ?_, fun xs _ hx => absurd hx ?_,
        fun fs _ hf => absurd hf ?_⟩
      · have := jfuel_pos j; omega
      · have := jfuelList_pos xs; omega
      · have := jfuelFields_pos fs; omega
  | succ f ih =>
      obtain ⟨ihv, ihi, ihf⟩ := ih
      refine ⟨?_, ?_, ?_⟩
      · intro j rest hj hb
        cases j with
        | null => exact parseP_null f rest
        | bool b =>
            cases b with
            | true => exact parseP_true f rest
            | false => exact parseP_false f rest
        | str s =>
            have hsh : Json.dumpChars (.str s) ++ rest
                = '"' :: (escapeChars s.data ++ '"' :: rest) := by
              rw [show Json.dumpChars (.str s) = '"' :: (escapeChars s.data ++ ['"']) from rfl]
              simp
            rw [hsh, parseP_quote, parseStrBody_escape]
            rfl
        | num n =>
            by_cases hneg : n < 0
            · have hi : intChars n = '-' :: natDigits n.natAbs := by simp [intChars, hneg]
              rw [show Json.dumpChars (.num n) = intChars n from rfl, hi, List.cons_append,
                parseP_numHead f '-' _ (by decide) (by decide) (by decide) (by decide)
                  (by decide) (by decide),
                ← List.cons_append, ← hi]
              exact parseNumFrom_intChars n rest hb
            · have hi : intChars n = natDigits n.toNat := by simp [intChars, hneg]
              obtain ⟨d, tl, hdt⟩ : ∃ d tl, natDigits n.toNat = d :: tl := by
                cases hnd : natDigits n.toNat with
                | nil => exact absurd hnd (natDigits_ne_nil _)
                | cons d tl => exact ⟨d, tl, rfl⟩
              have hdig : isDigitChar d = true := natDigits_digits _ d (by rw [hdt]; simp)
              obtain ⟨e1, e2, e3, e4, e5, e6, _⟩ := isDigitChar_ne d hdig
              rw [show Json.dumpChars (.num n) = intChars n from rfl, hi, hdt, List.cons_append,
                parseP_numHead f d _ e1 e2 e3 e4 e5 e6,
                ← List.cons_append, ← hdt, ← hi]
              exact parseNumFrom_intChars n rest hb
        | arr xs =>
            have hsh : Json.dumpChars (.arr xs) ++ rest = '[' :: (Json.dumpItems xs ++ rest) := by
              rw [show Json.dumpChars (.arr xs) = '[' :: Json.dumpItems xs from rfl]
              rfl
            rw [hsh, parseP_lbracket]
            refine ihi xs rest ?_
            have : jfuel (.arr xs) = 1 + jfuelList xs := rfl
            omega
        | obj fs =>
            have hsh : Json.dumpChars (.obj fs) ++ rest
                = openBrace :: (Json.dumpFields fs ++ rest) := by
              rw [show Json.dumpChars (.obj fs) = openBrace :: Json.dumpFields fs from rfl]
              rfl
            rw [hsh, parseP_obrace]
            refine ihf fs rest ?_
            have : jfuel (.obj fs) = 1 + jfuelFields fs := rfl
            omega
      · intro xs rest hx
        cases xs with
        | nil => exact parseP_itemsDone f rest
        | cons x xs2 =>
            obtain ⟨c, tl, hdt, hne⟩ := dumpChars_head x
            cases xs2 with
            | nil =>
                have hval : parseP f .val (Json.dumpChars x ++ (']' :: rest))
                    = some (x, ']' :: rest) := by
                  refine ihv x (']' :: rest) ?_ rfl
                  have h1 : jfuelList [x] = 1 + max (jfuel x) (jfuelList []) := rfl
                  have h0 : jfuelList ([] : List Json) = 1 := rfl
                  omega
                have hsh : Json.dumpItems [x] ++ rest = c :: (tl ++ (']' :: rest)) := by
                  rw [show Json.dumpItems [x] = Json.dumpChars x ++ [']'] from rfl, hdt]
                  simp
                rw [hsh]
                simp only [parseP]
                rw [if_neg hne, ← List.cons_append, ← hdt]
                simp only [hval]
            | cons y ys =>
                have hc1 : jfuelList (x :: y :: ys)
                    = 1 + max (jfuel x) (jfuelList (y :: ys)) := rfl
                have hval : parseP f .val (Json.dumpChars x
                      ++ (',' :: (Json.dumpItems (y :: ys) ++ rest)))
                    = some (x, ',' :: (Json.dumpItems (y :: ys) ++ rest)) :=
                  ihv x _ (by omega) rfl
                have hrec := ihi (y :: ys) rest (by omega)
                have hsh : Json.dumpItems (x :: y :: ys) ++ rest
                    = c :: (tl ++ (',' :: (Json.dumpItems (y :: ys) ++ rest))) := by
                  rw [show Json.dumpItems (x :: y :: ys)
                    = Json.dumpChars x ++ ',' :: Json.dumpItems (y :: ys) from rfl, hdt]
                  simp
                rw [hsh]
                simp only [parseP]
                rw [if_neg hne, ← List.cons_append, ← hdt]
                simp only [hval, hrec]
      · intro fs rest hf
        cases fs with
        | nil => exact parseP_fieldsDone f rest
        | cons kv fs2 =>
            obtain ⟨k, v⟩ := kv
            cases fs2 with
            | nil =>
                have hval : parseP f .val (Json.dumpChars v ++ (closeBrace :: rest))
                    = some (v, closeBrace :: rest) := by
                  refine ihv v _ ?_ rfl
                  have h1 : jfuelFields [(k, v)] = 1 + max (jfuel v) (jfuelFields []) := rfl
                  have h0 : jfuelFields ([] : List (String × Json)) = 1 := rfl
                  omega
                have hsh : Json.dumpFields [(k, v)] ++ rest
                    = '"' :: (escapeChars k.data
                        ++ '"' :: (':' :: (Json.dumpChars v ++ (closeBrace :: rest)))) := by
                  rw [show Json.dumpFields [(k, v)]
                    = '"' :: (escapeChars k.data ++ '"' :: ':'
                        :: (Json.dumpChars v ++ [closeBrace])) from rfl]
                  simp
                rw [hsh]
                simp only [parseP]
                rw [if_neg (by decide : ¬('"' = closeBrace))]
                simp only [parseStrBody_escape, hval,
                  show ¬(closeBrace = ',') from by decide]
                simp
            | cons kv2 fs3 =>
                obtain ⟨k2, v2⟩ := kv2
                have hc1 : jfuelFields ((k, v) :: (k2, v2) :: fs3)
                    = 1 + max (jfuel v) (jfuelFields ((k2, v2) :: fs3)) := rfl
                have hval : parseP f .val (Json.dumpChars v
                      ++ (',' :: (Json.dumpFields ((k2, v2) :: fs3) ++ rest)))
                    = some (v, ',' :: (Json.dumpFields ((k2, v2) :: fs3) ++ rest)) :=
                  ihv v _ (by omega) rfl
                have hrec := ihf ((k2, v2) :: fs3) rest (by omega)
                have hsh : Json.dumpFields ((k, v) :: (k2, v2) :: fs3) ++ rest
                    = '"' :: (escapeChars k.data
                        ++ '"' :: (':' :: (Json.dumpChars v
                            ++ (',' :: (Json.dumpFields ((k2, v2) :: fs3) ++ rest))))) := by
                  rw [show Json.dumpFields ((k, v) :: (k2, v2) :: fs3)
                    = '"' :: (escapeChars k.data ++ '"' :: ':'
                        :: (Json.dumpChars v ++ ',' :: Json.dumpFields ((k2, v2) :: fs3)))
                    from rfl]
                  simp
                rw [hsh]
                simp only [parseP]
                rw [if_neg (by decide : ¬('"' = closeBrace))]
                simp only [parseStrBody_escape, hval, hrec]
                simp

/-- The codec round trip (models: `json.loads(json.dumps(x)) == x`). -/
theorem Json.loads_dumps (j : Json) : Json.loads (Json.dumps j) = some j := by
  have h2 := (parseP_dump ((Json.dumpChars j).length + 1)).1 j []
    (by have := jfuel_le_dump j; omega) rfl
  rw [List.append_nil] at h2
  simp [Json.loads, parseVal, Json.dumps, h2]

/-! ## Envelope and consume helpers -/

/-- Envelope validation inverts `model_dump`. -/
theorem MessageData.fromJson_toJson (m : MessageData) :
    MessageData.fromJson m.toJson = some m := by
  obtain ⟨ts, ds, sn, sp, msg⟩ := m
  simp [MessageData.toJson, MessageData.fromJson, jlookup]

theorem MessageData.make_message (now a b c : String) (p : Json) :
    (MessageData.make now a b c p).message = p := rfl

/-- `_validate_message` on a produced wire record recovers the envelope. -/
theorem validateMessage_wire (m : MessageData) :
    DatasetConsumer.validateMessage (some ⟨some (Json.dumps m.toJson), none⟩)
      = .ok (some m) := by
  simp [DatasetConsumer.validateMessage, Json.loads_dumps, MessageData.fromJson_toJson]

/-- A `"next"`-mode consume on a queue headed by a produced record yields
the envelope, advances the queue and sets `cached`. -/
theorem consume_next_wire (c : DatasetConsumer) (m : MessageData) (rest : List PollItem)
    (h : c.broker.queue = .msg (some (Json.dumps m.toJson)) none :: rest) :
    c.consume "next"
      = (.ok (some m),
         { c with cached := true, broker := { c.broker with queue := rest } }) := by
  simp [DatasetConsumer.consume, BrokerState.poll, h, validateMessage_wire]

/-! ## Claims -/

/-- Claim C1: a `DatasetConsumer` and a `DatasetProducer` constructed with
the same (dataset, pipeline, node, prefix, has-pipeline-prefix) tuple
resolve to the identical physical topic: the topic the consumer subscribes
to equals the producer's `topic_name`, and both are
`[prefix.][pipeline.]dataset` with the pipeline segment present exactly
when the flag is set. -/
theorem C1_topic_agreement (dataset_name node_name pipeline_name : String)
    (pfx : Option String) (pipelinePrefixed : Bool) (b : BrokerState) :
    (DatasetConsumer.init dataset_name node_name pipeline_name pfx pipelinePrefixed b).subscribed
        = [(DatasetProducer.init dataset_name node_name pipeline_name pfx
              pipelinePrefixed).topic_name]
      ∧ (DatasetProducer.init dataset_name node_name pipeline_name pfx
           pipelinePrefixed).topic_name
        = specTopicName dataset_name pipeline_name pfx pipelinePrefixed := by
  cases hp : truthy pfx <;>
    simp [DatasetConsumer.init, DatasetProducer.init, specTopicName, hp]

/-- Claim C7 counterexample: with dataset `"ds"`, pipeline `"pl"`, prefix
`"test"` and pipeline-prefixing on, the consumer's `topic_name` attribute
is `"pl.ds"` — not the claimed prefix-qualified `"test.pl.ds"`. -/
theorem C7_counterexample :
    (DatasetConsumer.init "ds" "node" "pl" (some "test") true
        { queue := [], assignment := [], watermarks := [], watermarkError := none }).topic_name
        = "pl.ds"
      ∧ "pl.ds" ≠ "test.pl.ds" := by
  exact ⟨rfl, by decide⟩

/-- Claim C7 (amended): the consumer's `topic_name` attribute is
`[pipeline.]dataset` — the prefix segment is never part of the attribute;
the prefix-qualified topic `[prefix.][pipeline.]dataset` is what the
consumer subscribes to. -/
theorem C7_topic_attribute (dataset_name node_name pipeline_name : String)
    (pfx : Option String) (pipelinePrefixed : Bool) (b : BrokerState) :
    (DatasetConsumer.init dataset_name node_name pipeline_name pfx pipelinePrefixed
        b).topic_name
        = (if pipelinePrefixed then pipeline_name ++ "." ++ dataset_name else dataset_name)
      ∧ (DatasetConsumer.init dataset_name node_name pipeline_name pfx pipelinePrefixed
           b).subscribed
        = [specTopicName dataset_name pipeline_name pfx pipelinePrefixed] := by
  cases hp : truthy pfx <;>
    simp [DatasetConsumer.init, specTopicName, hp]

/-- Claim C4: `_update_offset_to_latest` seeks every assigned partition to
one before its high watermark, or to `-1` when the watermark is the
`OFFSET_INVALID` sentinel, and raises no error when the watermark calls
succeed. -/
theorem C4_update_offset_to_latest (c : DatasetConsumer)
    (h : c.broker.watermarkError = none) :
    c.updateOffsetToLatest
      = .ok { c.broker with assignment := c.broker.assignment.map (fun p =>
          let high := (c.broker.watermarks.lookup p.partition).getD OFFSET_INVALID
          { p with offset := if high = OFFSET_INVALID then -1 else high - 1 }) } := by
  have hseek : ∀ ps : List TopicPartition,
      seekAll c.broker c.cached ps
        = .ok (ps.map (fun p =>
            let high := (c.broker.watermarks.lookup p.partition).getD OFFSET_INVALID
            { p with offset := if high = OFFSET_INVALID then -1 else high - 1 })) := by
    intro ps
    induction ps with
    | nil => rfl
    | cons p t ih =>
        simp [seekAll, BrokerState.highWatermark, h, ih, seekPartition]
        split <;> rfl
  simp [DatasetConsumer.updateOffsetToLatest, hseek]

/-- Claim C4 witness: two partitions, one with watermark `5` (seeked to
`4`), one with the invalid sentinel (seeked to `-1`), no error raised. -/
theorem C4_update_offset_to_latest_witness :
    (({ name := "pl.node", topic_name := "ds", subscribed := ["pl.ds"], cached := false,
        broker := { queue := [], assignment := [⟨0, 0⟩, ⟨1, 7⟩],
                    watermarks := [(0, 5), (1, OFFSET_INVALID)], watermarkError := none } } :
       DatasetConsumer)).updateOffsetToLatest
      = .ok { queue := [], assignment := [⟨0, 4⟩, ⟨1, -1⟩],
              watermarks := [(0, 5), (1, OFFSET_INVALID)], watermarkError := none } := by
  have h := C4_update_offset_to_latest
    { name := "pl.node", topic_name := "ds", subscribed := ["pl.ds"], cached := false,
      broker := { queue := [], assignment := [⟨0, 0⟩, ⟨1, 7⟩],
                  watermarks := [(0, 5), (1, OFFSET_INVALID)], watermarkError := none } }
    rfl
  simpa using h

/-- Claim C5 counterexample: a consumer that has never run an
offset-to-latest seek (it consumes once in `"next"` mode) nevertheless ends
with `cached = true`, contradicting "stays false until the first
offset-to-latest operation has run". -/
theorem C5_counterexample :
    ((DatasetConsumer.init "ds" "node" "pl" none false
        { queue := [PollItem.timeout], assignment := [], watermarks := [],
          watermarkError := none }).consume "next").2.cached = true := rfl

/-- Claim C5 (amended): `cached` is false from construction and stays
false until the first `consume` whose poll completes; any completed
consume — `"next"` or `"last"` mode — sets it to true, and every failing
path leaves it unchanged: a poll raise in either mode, and the caught
offset-update error in `"last"` mode (which returns the state untouched).
So the flag is not tied to the first offset-to-latest seek. -/
theorem C5_cached_flag :
    (∀ (dataset_name node_name pipeline_name : String) (pfx : Option String)
        (pipelinePrefixed : Bool) (b : BrokerState),
        (DatasetConsumer.init dataset_name node_name pipeline_name pfx pipelinePrefixed
          b).cached = false)
      ∧ (∀ (c : DatasetConsumer) (raw : Option RawMessage) (b2 : BrokerState),
          c.broker.poll = (.ok raw, b2) → ((c.consume "next").2).cached = true)
      ∧ (∀ (c : DatasetConsumer) (b1 : BrokerState) (raw : Option RawMessage)
          (b2 : BrokerState),
          c.updateOffsetToLatest = .ok b1 → b1.poll = (.ok raw, b2) →
          ((c.consume "last").2).cached = true)
      ∧ (∀ (c : DatasetConsumer) (e : KafkaError) (b2 : BrokerState),
          c.broker.poll = (.error e, b2) → ((c.consume "next").2).cached = c.cached)
      ∧ (∀ (c : DatasetConsumer) (e : KafkaError),
          c.updateOffsetToLatest = .error e → (c.consume "last").2 = c)
      ∧ (∀ (c : DatasetConsumer) (b1 : BrokerState) (e : KafkaError) (b2 : BrokerState),
          c.updateOffsetToLatest = .ok b1 → b1.poll = (.error e, b2) →
          ((c.consume "last").2).cached = c.cached) := by
  refine ⟨?_, ?_, ?_, ?_, ?_, ?_⟩
  · intro dataset_name node_name pipeline_name pfx pipelinePrefixed b
    cases hp : truthy pfx <;> simp [DatasetConsumer.init, hp]
  · intro c raw b2 hpoll
    simp [DatasetConsumer.consume, hpoll]
  · intro c b1 raw b2 hupd hpoll
    simp [DatasetConsumer.consume, hupd, hpoll]
  · intro c e b2 hpoll
    simp [DatasetConsumer.consume, hpoll]
  · intro c e hupd
    simp [DatasetConsumer.consume, hupd]
  · intro c b1 e b2 hupd hpoll
    simp [DatasetConsumer.consume, hupd, hpoll]

/-- Claim C5 witness: a freshly constructed consumer has `cached = false`;
a completed `"next"` poll sets it, a completed `"last"` seek-and-poll sets
it; a poll raise in `"next"` mode, a fatal offset update in `"last"` mode,
and a poll raise after a successful `"last"` seek each leave it false. -/
theorem C5_cached_flag_witness :
    (DatasetConsumer.init "ds" "node" "pl" none false
        { queue := [PollItem.timeout], assignment := [], watermarks := [],
          watermarkError := none }).cached = false
      ∧ ((DatasetConsumer.init "ds" "node" "pl" none false
          { queue := [PollItem.timeout], assignment := [], watermarks := [],
            watermarkError := none }).consume "next").2.cached = true
      ∧ (({ name := "pl.node", topic_name := "ds", subscribed := ["pl.ds"],
            cached := false,
            broker := { queue := [PollItem.timeout], assignment := [⟨0, 0⟩],
                        watermarks := [(0, 5)], watermarkError := none } } :
           DatasetConsumer).consume "last").2.cached = true
      ∧ (({ name := "pl.node", topic_name := "ds", subscribed := ["pl.ds"],
            cached := false,
            broker := { queue := [.raise { code := "E1" }], assignment := [],
                        watermarks := [], watermarkError := none } } :
           DatasetConsumer).consume "next").2.cached = false
      ∧ (({ name := "pl.node", topic_name := "ds", subscribed := ["pl.ds"],
            cached := false,
            broker := { queue := [], assignment := [⟨0, 0⟩], watermarks := [],
                        watermarkError := some { code := "E2" } } } :
           DatasetConsumer).consume "last").2
        = { name := "pl.node", topic_name := "ds", subscribed := ["pl.ds"],
            cached := false,
            broker := { queue := [], assignment := [⟨0, 0⟩], watermarks := [],
                        watermarkError := some { code := "E2" } } }
      ∧ (({ name := "pl.node", topic_name := "ds", subscribed := ["pl.ds"],
            cached := false,
            broker := { queue := [.raise { code := "E3" }], assignment := [⟨0, 0⟩],
                        watermarks := [(0, 5)], watermarkError := none } } :
           DatasetConsumer).consume "last").2.cached = false := by
  refine ⟨?_, ?_, ?_, ?_, ?_, ?_⟩
  · exact C5_cached_flag.1 "ds" "node" "pl" none false
      { queue := [PollItem.timeout], assignment := [], watermarks := [],
        watermarkError := none }
  · exact C5_cached_flag.2.1 _ none _ rfl
  · exact C5_cached_flag.2.2.1 _
      { queue := [PollItem.timeout], assignment := [⟨0, 4⟩], watermarks := [(0, 5)],
        watermarkError := none } none
      { queue := [], assignment := [⟨0, 4⟩], watermarks := [(0, 5)],
        watermarkError := none } rfl rfl
  · exact C5_cached_flag.2.2.2.1 _ { code := "E1" }
      { queue := [], assignment := [], watermarks := [], watermarkError := none } rfl
  · exact C5_cached_flag.2.2.2.2.1 _ { code := "E2" } rfl
  · exact C5_cached_flag.2.2.2.2.2 _
      { queue := [.raise { code := "E3" }], assignment := [⟨0, 4⟩],
        watermarks := [(0, 5)], watermarkError := none } { code := "E3" }
      { queue := [], assignment := [⟨0, 4⟩], watermarks := [(0, 5)],
        watermarkError := none } rfl rfl

/-- Claim C2: for any JSON-representable payload, producing it with
`DatasetProducer.produce` (envelope wrap, serialize to JSON text) and
consuming the delivered record in `"next"` mode (decode, parse, validate)
yields an envelope whose `message` field equals the payload exactly. -/
theorem C2_produce_consume_roundtrip (dataset_name node_name pipeline_name : String)
    (pfx : Option String) (pipelinePrefixed : Bool) (now : String) (p : Json)
    (key : Option String) (cname ctopic : String) (csub : List String) (b : BrokerState) :
    (({ name := cname, topic_name := ctopic, subscribed := csub, cached := false,
        broker := { b with queue :=
          [.msg (some ((DatasetProducer.init dataset_name node_name pipeline_name pfx
              pipelinePrefixed).produce now p key).value) none] } } :
       DatasetConsumer).consume "next").1
        = .ok (some (MessageData.make now dataset_name node_name pipeline_name p))
      ∧ (MessageData.make now dataset_name node_name pipeline_name p).message = p := by
  constructor
  · rw [consume_next_wire _ (MessageData.make now dataset_name node_name pipeline_name p) []
      rfl]
  · rfl

/-- Claim C8: a fake consumer seeded with `[a, b, c]` returns envelopes
carrying `a`, `b`, `c` on three successive `next()` calls, the third call
leaves `empty = true`, and a fourth `consume("next")` is absent. -/
theorem C8_fake_next_sequence (dn nn sp now : String) (a b c : Json) :
    ((FakeDatasetConsumer.init dn nn sp [a, b, c]).next now).1
        = .ok (some (.wrapped (MessageData.make now dn nn sp a)))
      ∧ (((FakeDatasetConsumer.init dn nn sp [a, b, c]).next now).2.next now).1
        = .ok (some (.wrapped (MessageData.make now dn nn sp b)))
      ∧ ((((FakeDatasetConsumer.init dn nn sp [a, b, c]).next now).2.next now).2.next now).1
        = .ok (some (.wrapped (MessageData.make now dn nn sp c)))
      ∧ ((((FakeDatasetConsumer.init dn nn sp [a, b, c]).next now).2.next now).2.next
          now).2.empty = true
      ∧ (((((FakeDatasetConsumer.init dn nn sp [a, b, c]).next now).2.next now).2.next
          now).2.consume "next" now).1 = .ok none := by
  refine ⟨?_, ?_, ?_, ?_, ?_⟩ <;>
    simp [FakeDatasetConsumer.init, FakeDatasetConsumer.next, FakeDatasetConsumer.consume,
      MessageData.make]

/-- Claim C10: a fake `consume("last")` returns the raw tail element of
`values` (not wrapped in an envelope, unlike `"next"` mode) and leaves the
state — both `values` and the `empty` flag — unchanged; on an empty list it
returns absent. -/
theorem C10_fake_last_raw (c : FakeDatasetConsumer) (now : String) :
    c.consume "last" now = (.ok ((c.values.getLast?).map FakeResult.raw), c) := by
  have h1 : ¬(("last" : String) ≠ "next" ∧ ("last" : String) ≠ "last") := by simp
  simp only [FakeDatasetConsumer.consume, if_neg h1]
  rw [if_neg (by decide : ¬(("last" : String) = "next"))]
  cases h : c.values.getLast? <;> simp [h]

/-- Claim C9 counterexample: `FakeDatasetConsumer.last` with timeout `0`
does not raise — it returns the last seeded value, because the fake
performs no timeout validation. -/
theorem C9_counterexample :
    FakeDatasetConsumer.last
        (FakeDatasetConsumer.init "ds" "node" "pl" [Json.str "a", Json.str "b"]) 0 "t0"
      = (.ok (some (.raw (Json.str "b"))),
         FakeDatasetConsumer.init "ds" "node" "pl" [Json.str "a", Json.str "b"]) := rfl

/-- Claim C9 (amended): the real `DatasetConsumer.last` rejects a
non-positive timeout synchronously with a `ValueError`, leaving the state
(hence the broker) untouched; `FakeDatasetConsumer.last` performs no such
validation and simply delegates to `consume("last")`. -/
theorem C9_last_timeout :
    (∀ (c : DatasetConsumer) (timeout : Int) (fuel : Nat), timeout ≤ 0 →
        DatasetConsumer.last fuel c timeout
          = some (.error (.valueError
              "Timeout must be greater than 0 when consuming the last message."), c))
      ∧ (∀ (fc : FakeDatasetConsumer) (timeout : Int) (now : String),
          FakeDatasetConsumer.last fc timeout now = fc.consume "last" now) := by
  constructor
  · intro c timeout fuel h
    simp [DatasetConsumer.last, h]
  · intro fc timeout now
    rfl

/-- Claim C9 witness: `last` with timeout `0` raises the usage error at a
concrete consumer, and the fake's `last 0` is its `consume("last")`. -/
theorem C9_last_timeout_witness :
    DatasetConsumer.last 5
        { name := "pl.node", topic_name := "ds", subscribed := ["pl.ds"], cached := false,
          broker := { queue := [], assignment := [], watermarks := [],
                      watermarkError := none } } 0
        = some (.error (.valueError
            "Timeout must be greater than 0 when consuming the last message."),
          { name := "pl.node", topic_name := "ds", subscribed := ["pl.ds"], cached := false,
            broker := { queue := [], assignment := [], watermarks := [],
                        watermarkError := none } })
      ∧ FakeDatasetConsumer.last (FakeDatasetConsumer.init "ds" "node" "pl" []) 0 "t0"
        = (FakeDatasetConsumer.init "ds" "node" "pl" []).consume "last" "t0" :=
  ⟨C9_last_timeout.1 _ 0 5 (by decide), C9_last_timeout.2 _ 0 "t0"⟩

/-- Claim C3 counterexample: a fatal broker error surfaced while updating
offsets to latest in `"last"` mode is not propagated — `consume("last")`
catches the `KafkaError`, logs it, and returns absent with the consumer
state unchanged, so the blocking wrapper silently retries instead of
raising. -/
theorem C3_counterexample :
    (({ name := "pl.node", topic_name := "ds", subscribed := ["pl.ds"], cached := false,
        broker := { queue := [], assignment := [{ partition := 0, offset := 0 }],
                    watermarks := [], watermarkError := some { code := "FATAL" } } } :
       DatasetConsumer).consume "last").1 = .ok none := rfl

/-- Claim C3 (amended): during a blocking consume, `_MAX_POLL_EXCEEDED`
raised by the poll is silently retried and any other error raised by the
poll is propagated as a fatal raise; but an error surfaced while updating
offsets to latest in `"last"` mode is caught by `consume`, which returns
absent (state unchanged) instead of raising. -/
theorem C3_error_classification :
    (∀ (e : KafkaError) (fuel : Nat) (c : DatasetConsumer) (m : MessageData)
        (rest : List PollItem),
        e.code = "_MAX_POLL_EXCEEDED" →
        c.broker.queue = .raise e :: .msg (some (Json.dumps m.toJson)) none :: rest →
        DatasetConsumer.consumeMessage (fuel + 2) c "next"
          = some (.ok m,
              { c with cached := true, broker := { c.broker with queue := rest } }))
      ∧ (∀ (e : KafkaError) (fuel : Nat) (c : DatasetConsumer) (rest : List PollItem),
          e.code ≠ "_MAX_POLL_EXCEEDED" →
          c.broker.queue = .raise e :: rest →
          DatasetConsumer.consumeMessage (fuel + 1) c "next"
            = some (.error (.kafka e),
                { c with broker := { c.broker with queue := rest } }))
      ∧ (∀ (e : KafkaError) (c : DatasetConsumer) (p : TopicPartition)
          (ps : List TopicPartition),
          c.broker.watermarkError = some e → c.broker.assignment = p :: ps →
          c.consume "last" = (.ok none, c)) := by
  refine ⟨?_, ?_, ?_⟩
  · intro e fuel c m rest hcode hq
    have h1 : c.consume "next"
        = (.error (.kafka e), { c with broker := { c.broker with
            queue := .msg (some (Json.dumps m.toJson)) none :: rest } }) := by
      simp [DatasetConsumer.consume, BrokerState.poll, hq]
    have h2 := consume_next_wire
      { c with broker := { c.broker with
          queue := .msg (some (Json.dumps m.toJson)) none :: rest } } m rest rfl
    show DatasetConsumer.consumeMessage (fuel + 1 + 1) c "next" = _
    simp [DatasetConsumer.consumeMessage, h1, h2, hcode]
  · intro e fuel c rest hcode hq
    have h1 : c.consume "next"
        = (.error (.kafka e), { c with broker := { c.broker with queue := rest } }) := by
      simp [DatasetConsumer.consume, BrokerState.poll, hq]
    simp [DatasetConsumer.consumeMessage, h1, hcode]
  · intro e c p ps hw ha
    have hseek : seekAll c.broker c.cached (p :: ps) = .error e := by
      simp [seekAll, BrokerState.highWatermark, hw]
    simp [DatasetConsumer.consume, DatasetConsumer.updateOffsetToLatest, ha, hseek]

/-- Claim C3 witness: at concrete inputs — a `_MAX_POLL_EXCEEDED` raise is
retried through to the following record; an `"OTHER"` raise propagates; a
fatal watermark error during the `"last"`-mode seek yields absent. -/
theorem C3_error_classification_witness :
    DatasetConsumer.consumeMessage 2
        { name := "pl.node", topic_name := "ds", subscribed := ["pl.ds"], cached := false,
          broker :=
            { queue := [.raise { code := "_MAX_POLL_EXCEEDED" },
                        .msg (some (Json.dumps (MessageData.mk "t0" "ds" "node" "pl"
                          (Json.str "v")).toJson)) none],
              assignment := [], watermarks := [], watermarkError := none } } "next"
        = some (.ok (MessageData.mk "t0" "ds" "node" "pl" (Json.str "v")),
            { name := "pl.node", topic_name := "ds", subscribed := ["pl.ds"], cached := true,
              broker := { queue := [], assignment := [], watermarks := [],
                          watermarkError := none } })
      ∧ DatasetConsumer.consumeMessage 1
          { name := "pl.node", topic_name := "ds", subscribed := ["pl.ds"], cached := false,
            broker := { queue := [.raise { code := "OTHER" }], assignment := [],
                        watermarks := [], watermarkError := none } } "next"
          = some (.error (.kafka { code := "OTHER" }),
              { name := "pl.node", topic_name := "ds", subscribed := ["pl.ds"],
                cached := false,
                broker := { queue := [], assignment := [], watermarks := [],
                            watermarkError := none } })
      ∧ (({ name := "pl.node", topic_name := "ds", subscribed := ["pl.ds"], cached := false,
            broker := { queue := [], assignment := [{ partition := 0, offset := 0 }],
                        watermarks := [], watermarkError := some { code := "FATAL2" } } } :
           DatasetConsumer).consume "last")
          = (.ok none,
             { name := "pl.node", topic_name := "ds", subscribed := ["pl.ds"],
               cached := false,
               broker := { queue := [], assignment := [{ partition := 0, offset := 0 }],
                           watermarks := [], watermarkError := some { code := "FATAL2" } } }) :=
  ⟨C3_error_classification.1 { code := "_MAX_POLL_EXCEEDED" } 0 _
      (MessageData.mk "t0" "ds" "node" "pl" (Json.str "v")) [] rfl rfl,
   C3_error_classification.2.1 { code := "OTHER" } 0 _ [] (by decide) rfl,
   C3_error_classification.2.2 { code := "FATAL2" } _ { partition := 0, offset := 0 } []
      rfl rfl⟩

/-- One `consume_all` iteration over a produced record that is not the
terminator prepends its envelope to the remaining drain. -/
theorem consumeAll_step_wire (fuel : Nat) (c : DatasetConsumer) (m : MessageData)
    (rest : List PollItem) (endM : Json) (ms : List MessageData) (c3 : DatasetConsumer)
    (hq : c.broker.queue = .msg (some (Json.dumps m.toJson)) none :: rest)
    (hne : m.message ≠ endM)
    (hrec : DatasetConsumer.consumeAll fuel
        { c with cached := true, broker := { c.broker with queue := rest } } endM
      = some (.ok ms, c3)) :
    DatasetConsumer.consumeAll (fuel + 1) c endM = some (.ok (m :: ms), c3) := by
  have h1 := consume_next_wire c m rest hq
  conv_lhs => rw [DatasetConsumer.consumeAll.eq_def]
  simp [h1, hne, hrec]

/-- One `consume_all` iteration over a produced record that equals the
terminator stops, excluding it. -/
theorem consumeAll_end_wire (fuel : Nat) (c : DatasetConsumer) (m : MessageData)
    (rest : List PollItem) (endM : Json)
    (hq : c.broker.queue = .msg (some (Json.dumps m.toJson)) none :: rest)
    (heq : m.message = endM) :
    DatasetConsumer.consumeAll (fuel + 1) c endM
      = some (.ok [], { c with cached := true, broker := { c.broker with queue := rest } }) := by
  have h1 := consume_next_wire c m rest hq
  conv_lhs => rw [DatasetConsumer.consumeAll.eq_def]
  simp [h1, heq]

/-- Claim C6: `consume_all(end_message=E)` on the delivered sequence
`[x, y, E, z]` returns exactly the envelopes of `[x, y]` in arrival order,
including neither the terminator `E` (which is consumed) nor `z` (which
remains undelivered). -/
theorem C6_consume_all (dataset_name node_name pipeline_name now : String)
    (x y E z : Json) (fuel : Nat) (c : DatasetConsumer)
    (hx : x ≠ E) (hy : y ≠ E)
    (hq : c.broker.queue =
      [wireOf now dataset_name node_name pipeline_name x,
       wireOf now dataset_name node_name pipeline_name y,
       wireOf now dataset_name node_name pipeline_name E,
       wireOf now dataset_name node_name pipeline_name z]) :
    DatasetConsumer.consumeAll (fuel + 3) c E
      = some (.ok [MessageData.make now dataset_name node_name pipeline_name x,
                   MessageData.make now dataset_name node_name pipeline_name y],
          { c with cached := true, broker := { c.broker with queue :=
              [wireOf now dataset_name node_name pipeline_name z] } }) := by
  have e3 : DatasetConsumer.consumeAll (fuel + 1)
      { c with cached := true, broker := { c.broker with queue :=
          [wireOf now dataset_name node_name pipeline_name E,
           wireOf now dataset_name node_name pipeline_name z] } } E
      = some (.ok [],
          { c with cached := true, broker := { c.broker with queue :=
              [wireOf now dataset_name node_name pipeline_name z] } }) := by
    have h := consumeAll_end_wire fuel
      { c with cached := true, broker := { c.broker with queue :=
          [wireOf now dataset_name node_name pipeline_name E,
           wireOf now dataset_name node_name pipeline_name z] } }
      (MessageData.make now dataset_name node_name pipeline_name E)
      [wireOf now dataset_name node_name pipeline_name z] E rfl rfl
    exact h
  have e2 : DatasetConsumer.consumeAll (fuel + 1 + 1)
      { c with cached := true, broker := { c.broker with queue :=
          [wireOf now dataset_name node_name pipeline_name y,
           wireOf now dataset_name node_name pipeline_name E,
           wireOf now dataset_name node_name pipeline_name z] } } E
      = some (.ok [MessageData.make now dataset_name node_name pipeline_name y],
          { c with cached := true, broker := { c.broker with queue :=
              [wireOf now dataset_name node_name pipeline_name z] } }) := by
    refine consumeAll_step_wire (fuel + 1) _
      (MessageData.make now dataset_name node_name pipeline_name y)
      [wireOf now dataset_name node_name pipeline_name E,
       wireOf now dataset_name node_name pipeline_name z] E [] _ rfl hy ?_
    exact e3
  have e1 : DatasetConsumer.consumeAll (fuel + 1 + 1 + 1) c E
      = some (.ok [MessageData.make now dataset_name node_name pipeline_name x,
                   MessageData.make now dataset_name node_name pipeline_name y],
          { c with cached := true, broker := { c.broker with queue :=
              [wireOf now dataset_name node_name pipeline_name z] } }) := by
    refine consumeAll_step_wire (fuel + 1 + 1) c
      (MessageData.make now dataset_name node_name pipeline_name x)
      [wireOf now dataset_name node_name pipeline_name y,
       wireOf now dataset_name node_name pipeline_name E,
       wireOf now dataset_name node_name pipeline_name z] E
      [MessageData.make now dataset_name node_name pipeline_name y] _ (by rw [hq]; rfl) hx ?_
    exact e2
  exact e1

/-- Claim C6 witness: string payloads `"x"`, `"y"`, `"end"`, `"z"` with
terminator `"end"` drain to exactly the envelopes of `"x"` and `"y"`. -/
theorem C6_consume_all_witness :
    DatasetConsumer.consumeAll 3
        { name := "pl.node", topic_name := "ds", subscribed := ["pl.ds"], cached := false,
          broker := { queue := [wireOf "t0" "ds" "node" "pl" (Json.str "x"),
                                wireOf "t0" "ds" "node" "pl" (Json.str "y"),
                                wireOf "t0" "ds" "node" "pl" (Json.str "end"),
                                wireOf "t0" "ds" "node" "pl" (Json.str "z")],
                      assignment := [], watermarks := [], watermarkError := none } }
        (Json.str "end")
      = some (.ok [MessageData.make "t0" "ds" "node" "pl" (Json.str "x"),
                   MessageData.make "t0" "ds" "node" "pl" (Json.str "y")],
          { name := "pl.node", topic_name := "ds", subscribed := ["pl.ds"], cached := true,
            broker := { queue := [wireOf "t0" "ds" "node" "pl" (Json.str "z")],
                        assignment := [], watermarks := [], watermarkError := none } }) :=
  C6_consume_all "ds" "node" "pl" "t0" (Json.str "x") (Json.str "y") (Json.str "end")
    (Json.str "z") 0
    { name := "pl.node", topic_name := "ds", subscribed := ["pl.ds"], cached := false,
      broker := { queue := [wireOf "t0" "ds" "node" "pl" (Json.str "x"),
                            wireOf "t0" "ds" "node" "pl" (Json.str "y"),
                            wireOf "t0" "ds" "node" "pl" (Json.str "end"),
                            wireOf "t0" "ds" "node" "pl" (Json.str "z")],
                  assignment := [], watermarks := [], watermarkError := none } }
    (by decide) (by decide) rfl

end Aineko
